import Mathlib

/-!
Verification of the caching layer of the book-recommendation service
(`utils/decorators/cache.py`): the cache key builder `generate_cache_key`
(including its md5 fallback for long keys), the serialization codec
(`serialize_cache_data` / `deserialize_cache_data`), the read-through
`cached` decorator and the `invalidate_cache` decorator.  The decorators
are modeled as explicit state-passing functions over an association-list
Redis store; the wrapped operation is modeled as a function from its
invocation index to an outcome, with the state tracking how many times
its body has executed.
-/

namespace BookCache

/-! ### MD5 (model of `hashlib.md5(...).hexdigest()`)

All 32-bit machine arithmetic is carried out on `Nat` with explicit
reduction modulo `2^32`. -/

/-- The 32-bit modulus. -/
def m32 : Nat := 4294967296

/-- Left-rotate a 32-bit word (input assumed `< 2^32`). -/
def rotl32 (x c : Nat) : Nat :=
  (((x % m32) <<< c) % m32) ||| ((x % m32) >>> (32 - c))

/-- Per-round shift amounts of MD5. -/
def md5S : List Nat :=
  [7, 12, 17, 22, 7, 12, 17, 22, 7, 12, 17, 22, 7, 12, 17, 22,
   5, 9, 14, 20, 5, 9, 14, 20, 5, 9, 14, 20, 5, 9, 14, 20,
   4, 11, 16, 23, 4, 11, 16, 23, 4, 11, 16, 23, 4, 11, 16, 23,
   6, 10, 15, 21, 6, 10, 15, 21, 6, 10, 15, 21, 6, 10, 15, 21]

/-- The MD5 sine-derived constant table `K[i] = floor(2^32 * |sin(i+1)|)`. -/
def md5K : List Nat :=
  [3614090360, 3905402710, 606105819, 3250441966,
   4118548399, 1200080426, 2821735955, 4249261313,
   1770035416, 2336552879, 4294925233, 2304563134,
   1804603682, 4254626195, 2792965006, 1236535329,
   4129170786, 3225465664, 643717713, 3921069994,
   3593408605, 38016083, 3634488961, 3889429448,
   568446438, 3275163606, 4107603335, 1163531501,
   2850285829, 4243563512, 1735328473, 2368359562,
   4294588738, 2272392833, 1839030562, 4259657740,
   2763975236, 1272893353, 4139469664, 3200236656,
   681279174, 3936430074, 3572445317, 76029189,
   3654602809, 3873151461, 530742520, 3299628645,
   4096336452, 1126891415, 2878612391, 4237533241,
   1700485571, 2399980690, 4293915773, 2240044497,
   1873313359, 4264355552, 2734768916, 1309151649,
   4149444226, 3174756917, 718787259, 3951481745]

/-- Decode four bytes as a little-endian 32-bit word. -/
def bytesToWordLE (l : List Nat) : Nat :=
  match l with
  | [b0, b1, b2, b3] => b0 + b1 * 256 + b2 * 65536 + b3 * 16777216
  | _ => 0

/-- Encode a 32-bit word as four little-endian bytes. -/
def wordLE (w : Nat) : List Nat :=
  [w % 256, w / 256 % 256, w / 65536 % 256, w / 16777216 % 256]

/-- Encode a length (in bits) as eight little-endian bytes. -/
def le64 (n : Nat) : List Nat :=
  (List.range 8).map (fun i => n / 256 ^ i % 256)

/-- MD5 padding: append `0x80`, zero bytes up to 56 mod 64, then the
original bit length as a 64-bit little-endian quantity. -/
def md5Pad (msg : List Nat) : List Nat :=
  let z := (120 - (msg.length + 1) % 64) % 64
  msg ++ [128] ++ List.replicate z 0 ++ le64 (8 * msg.length)

/-- One of the 64 MD5 rounds, acting on the `(a, b, c, d)` state. -/
def md5Round (mw : List Nat) (st : Nat × Nat × Nat × Nat) (i : Nat) :
    Nat × Nat × Nat × Nat :=
  let a := st.1
  let b := st.2.1
  let c := st.2.2.1
  let d := st.2.2.2
  let fg : Nat × Nat :=
    if i < 16 then ((b &&& c) ||| ((4294967295 ^^^ b) &&& d), i)
    else if i < 32 then ((d &&& b) ||| ((4294967295 ^^^ d) &&& c), (5 * i + 1) % 16)
    else if i < 48 then (b ^^^ c ^^^ d, (3 * i + 5) % 16)
    else (c ^^^ (b ||| (4294967295 ^^^ d)), (7 * i) % 16)
  let fv := (fg.1 + a + md5K.getD i 0 + mw.getD fg.2 0) % m32
  (d, (b + rotl32 fv (md5S.getD i 0)) % m32, b, c)

/-- Process one 64-byte chunk. -/
def md5Chunk (st : Nat × Nat × Nat × Nat) (chunk : List Nat) :
    Nat × Nat × Nat × Nat :=
  let mw := (List.range 16).map (fun j => bytesToWordLE ((chunk.drop (4 * j)).take 4))
  let r := (List.range 64).foldl (md5Round mw) st
  ((st.1 + r.1) % m32, (st.2.1 + r.2.1) % m32,
   (st.2.2.1 + r.2.2.1) % m32, (st.2.2.2 + r.2.2.2) % m32)

/-- Split a byte list into chunks of 64 bytes. -/
def chunksOf64 : List Nat → List (List Nat)
  | [] => []
  | b :: l => ((b :: l).take 64) :: chunksOf64 ((b :: l).drop 64)
termination_by l => l.length
decreasing_by
  simp [List.length_drop]
  omega

/-- The MD5 initial state. -/
def md5Init : Nat × Nat × Nat × Nat :=
  (1732584193, 4023233417, 2562383102, 271733878)

/-- The 16-byte MD5 digest of a byte sequence. -/
def md5digest (msg : List Nat) : List Nat :=
  let st := (chunksOf64 (md5Pad msg)).foldl md5Chunk md5Init
  wordLE st.1 ++ wordLE st.2.1 ++ wordLE st.2.2.1 ++ wordLE st.2.2.2

/-- Lower-case hexadecimal digit for `n < 16`. -/
def hexDigit (n : Nat) : Char :=
  if n < 10 then Char.ofNat (48 + n) else Char.ofNat (87 + n)

/-- Two-character lower-case hexadecimal rendering of one byte. -/
def byteToHex (b : Nat) : List Char :=
  [hexDigit (b / 16 % 16), hexDigit (b % 16)]

/-- Render a byte list in lower-case hexadecimal. -/
def bytesToHex (l : List Nat) : String :=
  ⟨l.foldr (fun b acc => byteToHex b ++ acc) []⟩

/-- Model of Python's `hashlib.md5(s.encode()).hexdigest()`. -/
def md5hex (s : String) : String :=
  bytesToHex (md5digest (s.toUTF8.toList.map UInt8.toNat))

/-! ### Values and the serialization codec

A wrapped operation returns a Python value.  `Val` models the values that
matter to the caching layer: `vnull` is Python's `None` (the decorator
tests `result is not None`), the JSON-representable shapes (atoms here;
compound JSON documents behave identically through the codec contract
below) round-trip through `json.dumps`/`json.loads` losslessly, and
`pyObject` stands for a value that `json.dumps` cannot encode (a set, a
custom object, ...), on which serialization raises `TypeError`. -/

inductive Val where
  | vnull : Val
  | vbool : Bool → Val
  | vint : Int → Val
  | vstr : String → Val
  | pyObject : Nat → Val
  deriving DecidableEq, Repr

/-- Whether `json.dumps` succeeds on the value. -/
def Val.jsonOk : Val → Bool
  | .vnull => true
  | .vbool _ => true
  | .vint _ => true
  | .vstr _ => true
  | .pyObject _ => false

/-- A byte string held by the Redis backend.  `json.dumps` is a lossless
injective encoding of JSON-representable values whose output is never the
empty string, and `json.loads` inverts it and fails on any other text; the
codec is therefore modeled by its round-trip contract: a stored byte string
is either the encoding of a JSON value `v` (`jsonText v`) or a byte string
that is not valid JSON (`garbage s`, including the empty string
`garbage ""`). -/
inductive CVal where
  | jsonText : Val → CVal
  | garbage : String → CVal
  deriving DecidableEq, Repr

/-- Python truthiness of the stored byte string (`if cached_data:` in the
wrapper): only the empty byte string is falsy, and `json.dumps` never
produces the empty string. -/
def istruthy : CVal → Bool
  | .jsonText _ => true
  | .garbage s => if s = "" then false else true

/-- Cache-layer exceptions (`utils/exceptions/caching.py`): every one is a
`CacheException`; `serializationError` carries the failed operation name as
`CacheSerializationException` does, and `backendUnavailable` stands for a
connection/timeout failure raised by the Redis client. -/
inductive CErr where
  | serializationError : String → CErr
  | backendUnavailable : CErr
  deriving DecidableEq, Repr

/-- Model of `serialize_cache_data`: `json.dumps(data)`, raising
`CacheSerializationException(operation="serialize")` when the value is not
JSON-representable. -/
def serialize_cache_data (data : Val) : Except CErr CVal :=
  if data.jsonOk then .ok (.jsonText data)
  else .error (.serializationError "serialize")

/-- Model of `deserialize_cache_data`: `json.loads(data_str)`, raising
`CacheSerializationException(operation="deserialize")` on text that is not
valid JSON. -/
def deserialize_cache_data : CVal → Except CErr Val
  | .jsonText v => .ok v
  | .garbage _ => .error (.serializationError "deserialize")

/-! ### Cache key generation (`generate_cache_key`) -/

/-- A positional or keyword argument value, together with Python's `str` on
it.  (As the spec notes, `str` may collide across types: `str(5)` and
`str("5")` are both `"5"`.) -/
inductive Arg where
  | aint : Int → Arg
  | astr : String → Arg
  deriving DecidableEq, Repr

/-- Python's `str(arg)`. -/
def Arg.toStr : Arg → String
  | .aint n => toString n
  | .astr s => s

/-- Insert one keyword pair into a list sorted by key. -/
def insertKw (p : String × Arg) : List (String × Arg) → List (String × Arg)
  | [] => [p]
  | q :: qs => if p.1 ≤ q.1 then p :: q :: qs else q :: insertKw p qs

/-- Model of Python's `sorted(kwargs.items())`: keyword pairs sorted by
key (keys of a `dict` are distinct, so the value components never
participate in the comparison). -/
def sortKwargs : List (String × Arg) → List (String × Arg)
  | [] => []
  | p :: ps => insertKw p (sortKwargs ps)

/-- The naive joined key
`"{prefix}:{func_name}:{arg1}:...:{kwarg_k}:{kwarg_v}:..."` built by
`generate_cache_key` before the length check. -/
def cache_key_base (pfx func_name : String) (args : List Arg)
    (kwargs : List (String × Arg)) : String :=
  let args_str := args.map Arg.toStr
  let kwargs_str := (sortKwargs kwargs).map (fun p => p.1 ++ ":" ++ p.2.toStr)
  String.intercalate ":" ([pfx, func_name] ++ args_str ++ kwargs_str)

/-- Model of `generate_cache_key(prefix, func_name, args, kwargs)`
(the parameter `prefix` is rendered `pfx`, `prefix` being reserved in
Lean): join prefix, function name, stringified positional arguments and
sorted `k:v` keyword pairs with `":"`; if the joined key exceeds 200
characters, collapse it to `"{prefix}:{func_name}:hash:{md5hex}"`. -/
def generate_cache_key (pfx func_name : String) (args : List Arg)
    (kwargs : List (String × Arg)) : String :=
  let key_base := cache_key_base pfx func_name args kwargs
  if key_base.length > 200 then
    pfx ++ ":" ++ func_name ++ ":hash:" ++ md5hex key_base
  else
    key_base

/-! ### The Redis backend model

The backend is an association list from key to (stored byte string, ttl);
`getStore` sees the first binding of a key, `DEL` removes the key and
`SETEX` overwrites it.  Connectivity failures of the client are modeled by
per-operation failure flags: when a flag is set, that Redis call raises
(a connection/timeout error) instead of acting. -/

/-- One backend binding: key, stored byte string, remaining ttl. -/
abbrev Store := List (String × CVal × Nat)

/-- Model of `cache_client.get(key)`: `none` when the key is absent. -/
def getStore (key : String) : Store → Option (CVal × Nat)
  | [] => none
  | (k, cv, t) :: rest => if k = key then some (cv, t) else getStore key rest

/-- Model of `cache_client.delete(key)`: every binding of `key` is
removed, all other bindings stay. -/
def deleteStore (key : String) : Store → Store
  | [] => []
  | (k, cv, t) :: rest =>
    if k = key then deleteStore key rest
    else (k, cv, t) :: deleteStore key rest

/-- Model of `cache_client.setex(key, ttl, value)`. -/
def setexStore (key : String) (ttl : Nat) (cv : CVal) (st : Store) : Store :=
  (key, cv, ttl) :: deleteStore key st

/-- Which backend operations currently raise a connectivity error. -/
structure Flags where
  getFail : Bool
  setexFail : Bool
  deleteFail : Bool
  scanFail : Bool
  deriving DecidableEq, Repr

/-- A fully healthy backend. -/
def Flags.healthy : Flags := ⟨false, false, false, false⟩

/-- A backend whose every operation raises a connectivity error. -/
def Flags.allDown : Flags := ⟨true, true, true, true⟩

/-! ### Redis glob matching (the fragment used by the repository)

`invalidate_cache` passes patterns built from literal characters and `*`
to `SCAN ... MATCH`; this matcher covers exactly that fragment. -/

/-- All suffixes of a character list (the list itself included). -/
def allSuffixes : List Char → List (List Char)
  | [] => [[]]
  | c :: s => (c :: s) :: allSuffixes s

/-- Glob match of a pattern (literals and `*`) against a string: `*`
matches any (possibly empty) character sequence, i.e. the rest of the
pattern must match some suffix of the string. -/
def globMatchL : List Char → List Char → Bool
  | [], [] => true
  | [], _ :: _ => false
  | '*' :: ps, s => (allSuffixes s).any (fun t => globMatchL ps t)
  | _ :: _, [] => false
  | p :: ps, c :: s => p == c && globMatchL ps s

/-- Glob match on strings. -/
def globMatch (pat s : String) : Bool :=
  globMatchL pat.data s.data

/-! ### The decorated calls

A wrapped operation `f` is modeled as a function from its invocation index
to an outcome: `f n` is what the `n`-th execution of `f`'s body returns
(`Except.ok` a value, or `Except.error` a domain error, carried as its
code/message string).  `CacheSt` threads the backend store together with
the count of executions of `f`'s body, so that "the body is never
executed" / "executed exactly once" are stated as facts about `calls`. -/

/-- The state threaded through a decorated call. -/
structure CacheSt where
  store : Store
  calls : Nat
  deriving DecidableEq, Repr

/-- A wrapped operation: invocation index to outcome. -/
abbrev Fn := Nat → Except String Val

/-- Execute the wrapped operation's body once. -/
def runFunc (f : Fn) (s : CacheSt) : CacheSt × Except String Val :=
  ({ s with calls := s.calls + 1 }, f s.calls)

/-- An exception inside the wrapper's `try` block: either a cache-layer
exception (`CacheException` or a Redis client error) or a domain error
raised by the wrapped operation itself. -/
inductive Exc where
  | cacheExc : CErr → Exc
  | domain : String → Exc
  deriving DecidableEq, Repr

/-- The cache-miss branch of `cached.async_wrapper`: execute the function,
then — only for a non-`None` result — serialize it and `SETEX` it under
`key` with the decorator's `ttl`, and return the result. -/
def missPath (fl : Flags) (key : String) (ttl : Nat) (f : Fn) (s : CacheSt) :
    CacheSt × Except Exc Val :=
  let r := runFunc f s
  match r.2 with
  | .error de => (r.1, .error (.domain de))
  | .ok v =>
    if v = .vnull then (r.1, .ok v)
    else
      match serialize_cache_data v with
      | .error ce => (r.1, .error (.cacheExc ce))
      | .ok cv =>
        if fl.setexFail then (r.1, .error (.cacheExc .backendUnavailable))
        else ({ r.1 with store := setexStore key ttl cv r.1.store }, .ok v)

/-- The `try` block of `cached.async_wrapper`: `GET key`; on a truthy
reply, deserialize it and return (without executing the function); on a
falsy reply (absent key or empty byte string) fall through to the miss
branch. -/
def tryBody (fl : Flags) (key : String) (ttl : Nat) (f : Fn) (s : CacheSt) :
    CacheSt × Except Exc Val :=
  if fl.getFail then (s, .error (.cacheExc .backendUnavailable))
  else
    match getStore key s.store with
    | some (cv, _) =>
      if istruthy cv then
        match deserialize_cache_data cv with
        | .ok v => (s, .ok v)
        | .error ce => (s, .error (.cacheExc ce))
      else missPath fl key ttl f s
    | none => missPath fl key ttl f s

/-- Model of `cached(prefix, ttl).async_wrapper` (with the default key
builder).  `hasBackend` models the `hasattr(self, "cache") and
isinstance(self.cache, Redis)` guard: without a backend the function is
called directly (outside the `try`).  With a backend, the `try` body runs;
both `except CacheException` and `except Exception` handlers do the same
thing — log and `return await func(self, *args, **kwargs)` — so any
exception raised inside the `try` (cache-layer or domain) leads to a
second execution of the function, whose outcome (value or raised error)
is what the caller observes. -/
def cachedCall (hasBackend : Bool) (fl : Flags) (pfx fname : String)
    (args : List Arg) (kwargs : List (String × Arg)) (ttl : Nat)
    (f : Fn) (s : CacheSt) : CacheSt × Except String Val :=
  if !hasBackend then runFunc f s
  else
    let key := generate_cache_key pfx fname args kwargs
    let r := tryBody fl key ttl f s
    match r.2 with
    | .ok v => (r.1, .ok v)
    | .error _ => runFunc f r.1

/-- The key-resolution-and-delete `try` block of
`invalidate_cache.async_wrapper` (with the default `key_builder=None`),
acting on the store.  With a wildcard pattern the wrapper iterates
`cursor, keys = await cache_client.scan(cursor, match=pattern, count=100)`
deleting every returned key until the cursor comes back to `0`; the
backend's `SCAN` contract guarantees that the loop visits the whole
keyspace, which is modeled by the scan returning every currently matching
key with a final cursor of `0` (`count` is only a hint to the backend).
Any exception inside the block is caught and logged, leaving the store as
it was (`SCAN`/the first `DEL` raising means no deletion happened). -/
def invalidateTry (fl : Flags) (pfx fname : String) (key_pattern : Option String)
    (args : List Arg) (kwargs : List (String × Arg)) (st : Store) : Store :=
  match key_pattern with
  | some p =>
    if p.data.contains '*' then
      if fl.scanFail then st
      else
        let pattern := pfx ++ ":" ++ p
        let keys := (st.map (fun e => e.1)).filter (fun k => globMatch pattern k)
        if fl.deleteFail then st
        else keys.foldl (fun acc k => deleteStore k acc) st
    else
      if fl.deleteFail then st
      else deleteStore (pfx ++ ":" ++ p) st
  | none =>
    if fl.deleteFail then st
    else deleteStore (generate_cache_key pfx fname args kwargs) st

/-- Model of `invalidate_cache(prefix, key_pattern).async_wrapper` (with
the default `key_builder=None`): the function executes first (outside any
`try`, so its domain errors propagate untouched); afterwards, if a backend
is configured, the invalidation `try` block runs with every exception
swallowed, and the function's result is returned unchanged. -/
def invalidateCall (hasBackend : Bool) (fl : Flags) (pfx fname : String)
    (key_pattern : Option String) (args : List Arg)
    (kwargs : List (String × Arg)) (f : Fn) (s : CacheSt) :
    CacheSt × Except String Val :=
  let r := runFunc f s
  match r.2 with
  | .error de => (r.1, .error de)
  | .ok v =>
    if !hasBackend then (r.1, .ok v)
    else ({ r.1 with
            store := invalidateTry fl pfx fname key_pattern args kwargs r.1.store },
          .ok v)

/-! ### Lemmas about the store -/

theorem getStore_deleteStore_self (key : String) (st : Store) :
    getStore key (deleteStore key st) = none := by
  induction st with
  | nil => rfl
  | cons e rest ih =>
    obtain ⟨k, cv, t⟩ := e
    by_cases hk : k = key
    · simpa [deleteStore, hk] using ih
    · simp [deleteStore, getStore, hk, ih]

theorem getStore_deleteStore_ne (key k : String) (st : Store) (h : k ≠ key) :
    getStore k (deleteStore key st) = getStore k st := by
  induction st with
  | nil => rfl
  | cons e rest ih =>
    obtain ⟨k', cv, t⟩ := e
    by_cases hk : k' = key
    · rw [deleteStore, if_pos hk, ih, getStore,
        if_neg (fun he => h (he.symm.trans hk))]
    · rw [deleteStore, if_neg hk, getStore, getStore]
      by_cases hkk : k' = k
      · simp [hkk]
      · simp [hkk, ih]

theorem getStore_setexStore_self (key : String) (ttl : Nat) (cv : CVal)
    (st : Store) : getStore key (setexStore key ttl cv st) = some (cv, ttl) := by
  simp [setexStore, getStore]

theorem getStore_setexStore_ne (key k : String) (ttl : Nat) (cv : CVal)
    (st : Store) (h : k ≠ key) :
    getStore k (setexStore key ttl cv st) = getStore k st := by
  rw [setexStore, getStore, if_neg (fun he => h he.symm)]
  exact getStore_deleteStore_ne key k st h

theorem mem_keys_of_getStore_some {key : String} {st : Store} {e : CVal × Nat}
    (h : getStore key st = some e) : key ∈ st.map (fun e => e.1) := by
  induction st with
  | nil => simp [getStore] at h
  | cons b rest ih =>
    obtain ⟨k', cv, t⟩ := b
    rw [getStore] at h
    by_cases hk : k' = key
    · simp [hk]
    · rw [if_neg hk] at h
      simp [ih h]

theorem getStore_foldl_delete (k : String) (keys : List String) (st : Store) :
    getStore k (keys.foldl (fun acc kk => deleteStore kk acc) st) =
      if k ∈ keys then none else getStore k st := by
  induction keys generalizing st with
  | nil => simp
  | cons k0 ks ih =>
    rw [List.foldl_cons, ih]
    by_cases hmem : k ∈ ks
    · simp [hmem]
    · by_cases hk0 : k = k0
      · simp [hmem, hk0, getStore_deleteStore_self]
      · simp [hmem, hk0, getStore_deleteStore_ne k0 k st hk0]

/-! ### Lemmas about keyword-argument sorting -/

/-- The comparison `sorted(kwargs.items())` orders by: the key. -/
def kwLE (p q : String × Arg) : Prop := p.1 ≤ q.1

theorem insertKw_perm (p : String × Arg) (l : List (String × Arg)) :
    List.Perm (insertKw p l) (p :: l) := by
  induction l with
  | nil => rfl
  | cons q qs ih =>
    rw [insertKw]
    by_cases hle : p.1 ≤ q.1
    · rw [if_pos hle]
    · rw [if_neg hle]
      exact (ih.cons q).trans (List.Perm.swap p q qs)

theorem sortKwargs_perm (l : List (String × Arg)) :
    List.Perm (sortKwargs l) l := by
  induction l with
  | nil => rfl
  | cons p ps ih =>
    exact (insertKw_perm p (sortKwargs ps)).trans (ih.cons p)

theorem insertKw_sorted (p : String × Arg) (l : List (String × Arg))
    (h : l.Pairwise kwLE) : (insertKw p l).Pairwise kwLE := by
  induction l with
  | nil => simp [insertKw, List.pairwise_singleton]
  | cons q qs ih =>
    rw [insertKw]
    rcases List.pairwise_cons.mp h with ⟨hq, hqs⟩
    by_cases hle : p.1 ≤ q.1
    · rw [if_pos hle]
      refine List.pairwise_cons.mpr ⟨?_, h⟩
      intro x hx
      rcases List.mem_cons.mp hx with rfl | hx
      · exact hle
      · exact le_trans hle (hq x hx)
    · rw [if_neg hle]
      refine List.pairwise_cons.mpr ⟨?_, ih hqs⟩
      intro x hx
      rcases List.mem_cons.mp ((insertKw_perm p qs).mem_iff.mp hx) with rfl | hx
      · exact le_of_not_le hle
      · exact hq x hx

theorem sortKwargs_sorted (l : List (String × Arg)) :
    (sortKwargs l).Pairwise kwLE := by
  induction l with
  | nil => exact List.Pairwise.nil
  | cons p ps ih => exact insertKw_sorted p (sortKwargs ps) ih

/-- Keyword lists with pairwise-`≤` keys and no duplicate key are sorted
by the strict key order. -/
theorem pairwise_keyLT_of_sorted_nodup (l : List (String × Arg))
    (hs : l.Pairwise kwLE) (hnd : (l.map (fun p => p.1)).Nodup) :
    l.Pairwise (fun p q => p.1 < q.1) := by
  rw [List.Nodup, List.pairwise_map] at hnd
  exact (hs.and hnd).imp (fun h => lt_of_le_of_ne h.1 h.2)

/-- Two keyword lists over the same distinct keys that are permutations of
each other sort identically — the heart of call-site-order independence
of `sorted(kwargs.items())`. -/
theorem sortKwargs_eq_of_perm (l1 l2 : List (String × Arg))
    (hperm : List.Perm l1 l2) (hnd : (l1.map (fun p => p.1)).Nodup) :
    sortKwargs l1 = sortKwargs l2 := by
  have hinst : IsAntisymm (String × Arg) (fun p q => p.1 < q.1) :=
    ⟨fun _ _ h1 h2 => absurd h2 (asymm h1)⟩
  have hnd2 : (l2.map (fun p => p.1)).Nodup :=
    (hperm.map (fun p => p.1)).nodup hnd
  have hnds : ((sortKwargs l1).map (fun p => p.1)).Nodup :=
    ((sortKwargs_perm l1).map (fun p => p.1)).symm.nodup hnd
  have hnds2 : ((sortKwargs l2).map (fun p => p.1)).Nodup :=
    ((sortKwargs_perm l2).map (fun p => p.1)).symm.nodup hnd2
  have hp : List.Perm (sortKwargs l1) (sortKwargs l2) :=
    ((sortKwargs_perm l1).trans hperm).trans (sortKwargs_perm l2).symm
  exact List.eq_of_perm_of_sorted hp
    (pairwise_keyLT_of_sorted_nodup _ (sortKwargs_sorted l1) hnds)
    (pairwise_keyLT_of_sorted_nodup _ (sortKwargs_sorted l2) hnds2)

/-! ### Shape of the md5 hexdigest -/

theorem foldr_byteToHex_length (l : List Nat) :
    (l.foldr (fun b acc => byteToHex b ++ acc) []).length = 2 * l.length := by
  induction l with
  | nil => rfl
  | cons b bs ih =>
    rw [List.foldr_cons, List.length_append, ih]
    have h2 : (byteToHex b).length = 2 := rfl
    rw [h2, List.length_cons]
    omega

theorem bytesToHex_length (l : List Nat) : (bytesToHex l).length = 2 * l.length := by
  show (l.foldr (fun b acc => byteToHex b ++ acc) []).length = 2 * l.length
  exact foldr_byteToHex_length l

theorem md5digest_length (msg : List Nat) : (md5digest msg).length = 16 := by
  simp [md5digest, wordLE]

/-- The hexdigest is always exactly 32 characters. -/
theorem md5hex_length (s : String) : (md5hex s).length = 32 := by
  rw [md5hex, bytesToHex_length, md5digest_length]

theorem hexDigit_mem (m : Nat) (h : m < 16) :
    hexDigit m ∈ "0123456789abcdef".data := by
  interval_cases m <;> decide

theorem byteToHex_mem (b : Nat) :
    ∀ c ∈ byteToHex b, c ∈ "0123456789abcdef".data := by
  intro c hc
  rcases List.mem_cons.mp hc with rfl | hc
  · exact hexDigit_mem _ (Nat.mod_lt _ (by norm_num))
  · rcases List.mem_cons.mp hc with rfl | hc
    · exact hexDigit_mem _ (Nat.mod_lt _ (by norm_num))
    · simp at hc

/-- Every character of the hexdigest is a lower-case hexadecimal digit. -/
theorem md5hex_chars (s : String) :
    ∀ c ∈ (md5hex s).data, c ∈ "0123456789abcdef".data := by
  show ∀ c ∈ (md5digest (s.toUTF8.toList.map UInt8.toNat)).foldr
      (fun b acc => byteToHex b ++ acc) [], c ∈ "0123456789abcdef".data
  generalize md5digest (s.toUTF8.toList.map UInt8.toNat) = l
  induction l with
  | nil => intro c hc; simp at hc
  | cons b bs ih =>
    intro c hc
    rcases List.mem_append.mp (by simpa using hc) with hc | hc
    · exact byteToHex_mem b c hc
    · exact ih c hc

/-! ### The claims -/

/-- C8: `generate_cache_key` is a pure deterministic function: two calls
with the same prefix, operation name and positional arguments, whose
keyword-argument lists carry the same (duplicate-free) key-to-value
mapping in any supply order, return byte-identical key strings. -/
theorem generate_cache_key_kwarg_order_independent
    (pfx fname : String) (args : List Arg) (kw1 kw2 : List (String × Arg))
    (hnd : (kw1.map (fun p => p.1)).Nodup)
    (hperm : List.Perm kw1 kw2) :
    generate_cache_key pfx fname args kw1
      = generate_cache_key pfx fname args kw2 := by
  have hbase : cache_key_base pfx fname args kw1
      = cache_key_base pfx fname args kw2 := by
    unfold cache_key_base
    rw [sortKwargs_eq_of_perm kw1 kw2 hperm hnd]
  unfold generate_cache_key
  rw [hbase]

theorem generate_cache_key_kwarg_order_independent_witness :
    (([("b", Arg.aint 1), ("a", Arg.astr "x")].map
        (fun p : String × Arg => p.1)).Nodup
      ∧ List.Perm [("b", Arg.aint 1), ("a", Arg.astr "x")]
          [("a", Arg.astr "x"), ("b", Arg.aint 1)])
    ∧ generate_cache_key "svc" "get" [Arg.aint 3]
        [("b", Arg.aint 1), ("a", Arg.astr "x")]
      = generate_cache_key "svc" "get" [Arg.aint 3]
        [("a", Arg.astr "x"), ("b", Arg.aint 1)] :=
  ⟨⟨by decide, by decide⟩,
   generate_cache_key_kwarg_order_independent "svc" "get" [Arg.aint 3] _ _
     (by decide) (by decide)⟩

/-- C9: when the naive joined key exceeds 200 characters,
`generate_cache_key` returns exactly
`"{prefix}:{operation}:hash:{digest}"` where the digest is the
32-character lower-case hexadecimal md5 of the full joined key; otherwise
it returns the joined key itself. -/
theorem generate_cache_key_length_bound (pfx fname : String)
    (args : List Arg) (kwargs : List (String × Arg)) :
    ((cache_key_base pfx fname args kwargs).length > 200 →
      generate_cache_key pfx fname args kwargs
        = pfx ++ ":" ++ fname ++ ":hash:"
            ++ md5hex (cache_key_base pfx fname args kwargs)
      ∧ (md5hex (cache_key_base pfx fname args kwargs)).length = 32
      ∧ ∀ c ∈ (md5hex (cache_key_base pfx fname args kwargs)).data,
          c ∈ "0123456789abcdef".data)
    ∧ ((cache_key_base pfx fname args kwargs).length ≤ 200 →
      generate_cache_key pfx fname args kwargs
        = cache_key_base pfx fname args kwargs) := by
  constructor
  · intro h
    refine ⟨?_, md5hex_length _, md5hex_chars _⟩
    unfold generate_cache_key
    rw [if_pos h]
  · intro h
    unfold generate_cache_key
    rw [if_neg (by omega)]

set_option maxRecDepth 8192 in
theorem generate_cache_key_length_bound_witness :
    ((cache_key_base
        "aaaaaaaaaaaaaaaaaaaaaaaaaaaaaaaaaaaaaaaaaaaaaaaaaaaaaaaaaaaaaaaaaaaaaaaaaaaaaaaaaaaaaaaaaaaaaaaaaaaaaaaaaaaaaaaaaaaaaaaaaaaaaaaaaaaaaaaaaaaaaaaaaaaaaaaaaaaaaaaaaaaaaaaaaaaaaaaaaaaaaaaaaaaaaaaaaaaaaaaaaaaaaa"
        "f" [] []).length > 200
      ∧ generate_cache_key
          "aaaaaaaaaaaaaaaaaaaaaaaaaaaaaaaaaaaaaaaaaaaaaaaaaaaaaaaaaaaaaaaaaaaaaaaaaaaaaaaaaaaaaaaaaaaaaaaaaaaaaaaaaaaaaaaaaaaaaaaaaaaaaaaaaaaaaaaaaaaaaaaaaaaaaaaaaaaaaaaaaaaaaaaaaaaaaaaaaaaaaaaaaaaaaaaaaaaaaaaaaaaaaa"
          "f" [] []
        = "aaaaaaaaaaaaaaaaaaaaaaaaaaaaaaaaaaaaaaaaaaaaaaaaaaaaaaaaaaaaaaaaaaaaaaaaaaaaaaaaaaaaaaaaaaaaaaaaaaaaaaaaaaaaaaaaaaaaaaaaaaaaaaaaaaaaaaaaaaaaaaaaaaaaaaaaaaaaaaaaaaaaaaaaaaaaaaaaaaaaaaaaaaaaaaaaaaaaaaaaaaaaaa"
            ++ ":" ++ "f" ++ ":hash:"
            ++ md5hex (cache_key_base
              "aaaaaaaaaaaaaaaaaaaaaaaaaaaaaaaaaaaaaaaaaaaaaaaaaaaaaaaaaaaaaaaaaaaaaaaaaaaaaaaaaaaaaaaaaaaaaaaaaaaaaaaaaaaaaaaaaaaaaaaaaaaaaaaaaaaaaaaaaaaaaaaaaaaaaaaaaaaaaaaaaaaaaaaaaaaaaaaaaaaaaaaaaaaaaaaaaaaaaaaaaaaaaa"
              "f" [] [])
      ∧ (md5hex (cache_key_base
          "aaaaaaaaaaaaaaaaaaaaaaaaaaaaaaaaaaaaaaaaaaaaaaaaaaaaaaaaaaaaaaaaaaaaaaaaaaaaaaaaaaaaaaaaaaaaaaaaaaaaaaaaaaaaaaaaaaaaaaaaaaaaaaaaaaaaaaaaaaaaaaaaaaaaaaaaaaaaaaaaaaaaaaaaaaaaaaaaaaaaaaaaaaaaaaaaaaaaaaaaaaaaaa"
          "f" [] [])).length = 32
      ∧ ∀ c ∈ (md5hex (cache_key_base
          "aaaaaaaaaaaaaaaaaaaaaaaaaaaaaaaaaaaaaaaaaaaaaaaaaaaaaaaaaaaaaaaaaaaaaaaaaaaaaaaaaaaaaaaaaaaaaaaaaaaaaaaaaaaaaaaaaaaaaaaaaaaaaaaaaaaaaaaaaaaaaaaaaaaaaaaaaaaaaaaaaaaaaaaaaaaaaaaaaaaaaaaaaaaaaaaaaaaaaaaaaaaaaa"
          "f" [] [])).data, c ∈ "0123456789abcdef".data)
    ∧ ((cache_key_base "p" "f" [] []).length ≤ 200
      ∧ generate_cache_key "p" "f" [] [] = cache_key_base "p" "f" [] []) :=
  ⟨⟨by decide, (generate_cache_key_length_bound _ "f" [] []).1 (by decide)⟩,
   ⟨by decide, (generate_cache_key_length_bound "p" "f" [] []).2 (by decide)⟩⟩

/-- C3: with a configured backend holding a (deserializable) entry under
the key the decorator derives for the call, the decorated call returns
the deserialized stored value, the state is completely unchanged, and the
wrapped operation's body is never executed (the invocation counter stays
put). -/
theorem cached_hit_skips_execution
    (fl : Flags) (pfx fname : String) (args : List Arg)
    (kwargs : List (String × Arg)) (ttl : Nat) (f : Fn) (s : CacheSt)
    (v : Val) (t : Nat)
    (hget : fl.getFail = false)
    (hhit : getStore (generate_cache_key pfx fname args kwargs) s.store
      = some (.jsonText v, t)) :
    cachedCall true fl pfx fname args kwargs ttl f s = (s, .ok v)
    ∧ deserialize_cache_data (.jsonText v) = .ok v := by
  refine ⟨?_, rfl⟩
  simp [cachedCall, tryBody, hget, hhit, istruthy, deserialize_cache_data]

theorem cached_hit_skips_execution_witness :
    ((Flags.healthy.getFail = false)
      ∧ getStore (generate_cache_key "p" "f" [Arg.aint 7] [])
          [("p:f:7", CVal.jsonText (Val.vstr "stored"), 99)]
        = some (.jsonText (Val.vstr "stored"), 99))
    ∧ cachedCall true Flags.healthy "p" "f" [Arg.aint 7] [] 60
        (fun _ => .ok (.vint 1))
        ⟨[("p:f:7", CVal.jsonText (Val.vstr "stored"), 99)], 0⟩
      = (⟨[("p:f:7", CVal.jsonText (Val.vstr "stored"), 99)], 0⟩,
          .ok (.vstr "stored"))
    ∧ deserialize_cache_data (.jsonText (Val.vstr "stored"))
      = .ok (.vstr "stored") :=
  ⟨⟨rfl, by decide⟩,
   (cached_hit_skips_execution Flags.healthy "p" "f" [Arg.aint 7] [] 60
     (fun _ => .ok (.vint 1))
     ⟨[("p:f:7", CVal.jsonText (Val.vstr "stored"), 99)], 0⟩
     (Val.vstr "stored") 99 rfl (by decide)).1,
   (cached_hit_skips_execution Flags.healthy "p" "f" [Arg.aint 7] [] 60
     (fun _ => .ok (.vint 1))
     ⟨[("p:f:7", CVal.jsonText (Val.vstr "stored"), 99)], 0⟩
     (Val.vstr "stored") 99 rfl (by decide)).2⟩

/-- C4: with a configured, healthy backend holding nothing under the
derived key, one decorated call executes the body exactly once, returns
its (JSON-representable) result, and afterwards the backend holds an
entry at the derived key with expiry equal to the configured ttl whose
deserialized content equals that result — except that a `None` result
leaves the backend untouched. -/
theorem cached_miss_populates
    (fl : Flags) (pfx fname : String) (args : List Arg)
    (kwargs : List (String × Arg)) (ttl : Nat) (f : Fn) (s : CacheSt)
    (v : Val)
    (hget : fl.getFail = false) (hset : fl.setexFail = false)
    (hmiss : getStore (generate_cache_key pfx fname args kwargs) s.store = none)
    (hf : f s.calls = .ok v) (hjson : v.jsonOk = true) :
    (v ≠ .vnull →
      cachedCall true fl pfx fname args kwargs ttl f s
        = ({ store := setexStore (generate_cache_key pfx fname args kwargs)
                ttl (.jsonText v) s.store,
             calls := s.calls + 1 }, .ok v)
      ∧ getStore (generate_cache_key pfx fname args kwargs)
          (setexStore (generate_cache_key pfx fname args kwargs)
            ttl (.jsonText v) s.store)
        = some (.jsonText v, ttl)
      ∧ deserialize_cache_data (.jsonText v) = .ok v)
    ∧ (v = .vnull →
      cachedCall true fl pfx fname args kwargs ttl f s
        = ({ store := s.store, calls := s.calls + 1 }, .ok v)) := by
  constructor
  · intro hv
    refine ⟨?_, getStore_setexStore_self _ _ _ _, rfl⟩
    simp [cachedCall, tryBody, missPath, runFunc, hget, hset, hmiss, hf, hv,
      serialize_cache_data, hjson]
  · intro hv
    simp [cachedCall, tryBody, missPath, runFunc, hget, hmiss, hf, hv]

theorem cached_miss_populates_witness :
    (Flags.healthy.getFail = false ∧ Flags.healthy.setexFail = false
      ∧ getStore (generate_cache_key "p" "f" [Arg.aint 7] []) [] = none
      ∧ (fun _ : Nat => (.ok (.vint 5) : Except String Val)) 0 = .ok (.vint 5)
      ∧ Val.jsonOk (.vint 5) = true ∧ (Val.vint 5) ≠ .vnull)
    ∧ cachedCall true Flags.healthy "p" "f" [Arg.aint 7] [] 60
        (fun _ => .ok (.vint 5)) ⟨[], 0⟩
      = ({ store := setexStore (generate_cache_key "p" "f" [Arg.aint 7] [])
              60 (.jsonText (.vint 5)) [],
           calls := 1 }, .ok (.vint 5))
    ∧ getStore (generate_cache_key "p" "f" [Arg.aint 7] [])
        (setexStore (generate_cache_key "p" "f" [Arg.aint 7] [])
          60 (.jsonText (.vint 5)) [])
      = some (.jsonText (.vint 5), 60) :=
  ⟨⟨rfl, rfl, by decide, rfl, rfl, by decide⟩,
   ((cached_miss_populates Flags.healthy "p" "f" [Arg.aint 7] [] 60
      (fun _ => .ok (.vint 5)) ⟨[], 0⟩ (.vint 5)
      rfl rfl (by decide) rfl rfl).1 (by decide)).1,
   ((cached_miss_populates Flags.healthy "p" "f" [Arg.aint 7] [] 60
      (fun _ => .ok (.vint 5)) ⟨[], 0⟩ (.vint 5)
      rfl rfl (by decide) rfl rfl).1 (by decide)).2.1⟩

/-- C5: when every backend operation raises a connectivity error, a
decorated call under either decorator still executes the wrapped
operation, returns its normal result, leaves the store untouched, and no
cache-layer exception surfaces to the caller. -/
theorem decorators_degrade_gracefully
    (pfx fname : String) (key_pattern : Option String) (args : List Arg)
    (kwargs : List (String × Arg)) (ttl : Nat) (f : Fn) (s s' : CacheSt)
    (v v' : Val)
    (hf : f s.calls = .ok v) (hf' : f s'.calls = .ok v') :
    cachedCall true Flags.allDown pfx fname args kwargs ttl f s
      = ({ store := s.store, calls := s.calls + 1 }, .ok v)
    ∧ invalidateCall true Flags.allDown pfx fname key_pattern args kwargs f s'
      = ({ store := s'.store, calls := s'.calls + 1 }, .ok v') := by
  constructor
  · simp [cachedCall, tryBody, runFunc, Flags.allDown, hf]
  · rcases key_pattern with _ | p
    · simp [invalidateCall, invalidateTry, runFunc, Flags.allDown, hf']
    · by_cases hp : p.data.contains '*'
      <;> simp [invalidateCall, invalidateTry, runFunc, Flags.allDown, hf', hp]

theorem decorators_degrade_gracefully_witness :
    ((fun _ : Nat => (.ok (.vint 9) : Except String Val)) 0 = .ok (.vint 9))
    ∧ cachedCall true Flags.allDown "p" "f" [] [] 60 (fun _ => .ok (.vint 9))
        ⟨[("k", CVal.jsonText (Val.vint 1), 5)], 0⟩
      = ({ store := [("k", CVal.jsonText (Val.vint 1), 5)], calls := 1 },
          .ok (.vint 9))
    ∧ invalidateCall true Flags.allDown "p" "f" (some "user_*") [] []
        (fun _ => .ok (.vint 9)) ⟨[("k", CVal.jsonText (Val.vint 1), 5)], 0⟩
      = ({ store := [("k", CVal.jsonText (Val.vint 1), 5)], calls := 1 },
          .ok (.vint 9)) :=
  ⟨rfl,
   (decorators_degrade_gracefully "p" "f" (some "user_*") [] [] 60
     (fun _ => .ok (.vint 9)) ⟨[("k", CVal.jsonText (Val.vint 1), 5)], 0⟩
     ⟨[("k", CVal.jsonText (Val.vint 1), 5)], 0⟩ (.vint 9) (.vint 9)
     rfl rfl).1,
   (decorators_degrade_gracefully "p" "f" (some "user_*") [] [] 60
     (fun _ => .ok (.vint 9)) ⟨[("k", CVal.jsonText (Val.vint 1), 5)], 0⟩
     ⟨[("k", CVal.jsonText (Val.vint 1), 5)], 0⟩ (.vint 9) (.vint 9)
     rfl rfl).2⟩

/-- C6: with no `key_pattern` and no `key_builder`, a decorated mutation
deletes exactly the key `generate_cache_key(prefix, name, args, kwargs)`
— the key the read-through decorator with the same prefix and operation
name derives for the same arguments — and leaves every other key's
binding unchanged. -/
theorem invalidate_default_deletes_exact_key
    (fl : Flags) (pfx fname : String) (args : List Arg)
    (kwargs : List (String × Arg)) (f : Fn) (s : CacheSt) (v : Val)
    (hdel : fl.deleteFail = false) (hf : f s.calls = .ok v) :
    invalidateCall true fl pfx fname none args kwargs f s
      = ({ store := deleteStore (generate_cache_key pfx fname args kwargs)
              s.store,
           calls := s.calls + 1 }, .ok v)
    ∧ getStore (generate_cache_key pfx fname args kwargs)
        (deleteStore (generate_cache_key pfx fname args kwargs) s.store)
      = none
    ∧ ∀ k, k ≠ generate_cache_key pfx fname args kwargs →
        getStore k (deleteStore (generate_cache_key pfx fname args kwargs)
          s.store)
        = getStore k s.store := by
  refine ⟨?_, getStore_deleteStore_self _ _,
    fun k hk => getStore_deleteStore_ne _ _ _ hk⟩
  simp [invalidateCall, invalidateTry, runFunc, hdel, hf]

theorem invalidate_default_deletes_exact_key_witness :
    (Flags.healthy.deleteFail = false
      ∧ (fun _ : Nat => (.ok Val.vnull : Except String Val)) 0 = .ok .vnull)
    ∧ invalidateCall true Flags.healthy "p" "f" none [Arg.aint 7] []
        (fun _ => .ok .vnull)
        ⟨[("p:f:7", CVal.jsonText (Val.vint 1), 60),
          ("other", CVal.jsonText (Val.vint 2), 60)], 0⟩
      = ({ store := deleteStore (generate_cache_key "p" "f" [Arg.aint 7] [])
              [("p:f:7", CVal.jsonText (Val.vint 1), 60),
               ("other", CVal.jsonText (Val.vint 2), 60)],
           calls := 1 }, .ok .vnull)
    ∧ getStore "other"
        (deleteStore (generate_cache_key "p" "f" [Arg.aint 7] [])
          [("p:f:7", CVal.jsonText (Val.vint 1), 60),
           ("other", CVal.jsonText (Val.vint 2), 60)])
      = some (CVal.jsonText (Val.vint 2), 60) :=
  ⟨⟨rfl, rfl⟩,
   (invalidate_default_deletes_exact_key Flags.healthy "p" "f" [Arg.aint 7] []
     (fun _ => .ok .vnull)
     ⟨[("p:f:7", CVal.jsonText (Val.vint 1), 60),
       ("other", CVal.jsonText (Val.vint 2), 60)], 0⟩ .vnull rfl rfl).1,
   by decide⟩

/-- C7: with a wildcard `key_pattern`, after the decorated mutation every
backend key matching the glob `"{prefix}:{key_pattern}"` is gone and
every non-matching key's binding is untouched (the scan loop, whose
cursor protocol guarantees full keyspace traversal before the cursor
returns to 0, is modeled by a full-batch scan). -/
theorem invalidate_wildcard_deletes_matching
    (fl : Flags) (pfx fname p : String) (args : List Arg)
    (kwargs : List (String × Arg)) (f : Fn) (s : CacheSt) (v : Val)
    (hstar : p.data.contains '*' = true)
    (hscan : fl.scanFail = false) (hdel : fl.deleteFail = false)
    (hf : f s.calls = .ok v) :
    (invalidateCall true fl pfx fname (some p) args kwargs f s).2 = .ok v
    ∧ (invalidateCall true fl pfx fname (some p) args kwargs f s).1.calls
      = s.calls + 1
    ∧ ∀ k,
        (globMatch (pfx ++ ":" ++ p) k = true →
          getStore k
            (invalidateCall true fl pfx fname (some p) args kwargs f s).1.store
          = none)
        ∧ (globMatch (pfx ++ ":" ++ p) k = false →
          getStore k
            (invalidateCall true fl pfx fname (some p) args kwargs f s).1.store
          = getStore k s.store) := by
  have hstep : invalidateCall true fl pfx fname (some p) args kwargs f s
      = ({ store := ((s.store.map (fun e => e.1)).filter
              (fun k => globMatch (pfx ++ ":" ++ p) k)).foldl
              (fun acc k => deleteStore k acc) s.store,
           calls := s.calls + 1 }, .ok v) := by
    have hstar' : '*' ∈ p.data := by simpa using hstar
    simp [invalidateCall, invalidateTry, runFunc, hstar', hscan, hdel, hf]
  rw [hstep]
  refine ⟨rfl, rfl, fun k => ⟨?_, ?_⟩⟩
  · intro hm
    rw [getStore_foldl_delete]
    by_cases hmem : k ∈ (s.store.map (fun e => e.1)).filter
        (fun k => globMatch (pfx ++ ":" ++ p) k)
    · rw [if_pos hmem]
    · rw [if_neg hmem]
      cases hlook : getStore k s.store with
      | none => rfl
      | some e =>
        exact absurd
          (List.mem_filter.mpr ⟨mem_keys_of_getStore_some hlook, hm⟩) hmem
  · intro hm
    rw [getStore_foldl_delete, if_neg]
    intro hmem
    have hmk := (List.mem_filter.mp hmem).2
    rw [hm] at hmk
    exact Bool.false_ne_true hmk

theorem invalidate_wildcard_deletes_matching_witness :
    (List.contains "user_*".data '*' = true
      ∧ (fun _ : Nat => (.ok Val.vnull : Except String Val)) 0 = .ok .vnull
      ∧ globMatch ("p" ++ ":" ++ "user_*") "p:user_1" = true
      ∧ globMatch ("p" ++ ":" ++ "user_*") "q:user_1" = false)
    ∧ (invalidateCall true Flags.healthy "p" "f" (some "user_*") [] []
        (fun _ => .ok .vnull)
        ⟨[("p:user_1", CVal.jsonText (Val.vint 1), 60),
          ("p:user_2", CVal.jsonText (Val.vint 2), 60),
          ("q:user_1", CVal.jsonText (Val.vint 3), 60)], 0⟩).2 = .ok .vnull
    ∧ getStore "p:user_1"
        (invalidateCall true Flags.healthy "p" "f" (some "user_*") [] []
          (fun _ => .ok .vnull)
          ⟨[("p:user_1", CVal.jsonText (Val.vint 1), 60),
            ("p:user_2", CVal.jsonText (Val.vint 2), 60),
            ("q:user_1", CVal.jsonText (Val.vint 3), 60)], 0⟩).1.store = none
    ∧ getStore "q:user_1"
        (invalidateCall true Flags.healthy "p" "f" (some "user_*") [] []
          (fun _ => .ok .vnull)
          ⟨[("p:user_1", CVal.jsonText (Val.vint 1), 60),
            ("p:user_2", CVal.jsonText (Val.vint 2), 60),
            ("q:user_1", CVal.jsonText (Val.vint 3), 60)], 0⟩).1.store
      = getStore "q:user_1"
          [("p:user_1", CVal.jsonText (Val.vint 1), 60),
           ("p:user_2", CVal.jsonText (Val.vint 2), 60),
           ("q:user_1", CVal.jsonText (Val.vint 3), 60)] :=
  ⟨⟨by decide, rfl, by decide, by decide⟩,
   (invalidate_wildcard_deletes_matching Flags.healthy "p" "f" "user_*" [] []
     (fun _ => .ok .vnull)
     ⟨[("p:user_1", CVal.jsonText (Val.vint 1), 60),
       ("p:user_2", CVal.jsonText (Val.vint 2), 60),
       ("q:user_1", CVal.jsonText (Val.vint 3), 60)], 0⟩ .vnull
     (by decide) rfl rfl rfl).1,
   ((invalidate_wildcard_deletes_matching Flags.healthy "p" "f" "user_*" [] []
     (fun _ => .ok .vnull)
     ⟨[("p:user_1", CVal.jsonText (Val.vint 1), 60),
       ("p:user_2", CVal.jsonText (Val.vint 2), 60),
       ("q:user_1", CVal.jsonText (Val.vint 3), 60)], 0⟩ .vnull
     (by decide) rfl rfl rfl).2.2 "p:user_1").1 (by decide),
   ((invalidate_wildcard_deletes_matching Flags.healthy "p" "f" "user_*" [] []
     (fun _ => .ok .vnull)
     ⟨[("p:user_1", CVal.jsonText (Val.vint 1), 60),
       ("p:user_2", CVal.jsonText (Val.vint 2), 60),
       ("q:user_1", CVal.jsonText (Val.vint 3), 60)], 0⟩ .vnull
     (by decide) rfl rfl rfl).2.2 "q:user_1").2 (by decide)⟩

/-- C1 (counterexample): the claim says a domain error raised by the
wrapped operation propagates out of the decorated call uncaught, so the
decorated call raises exactly that error.  Under `cached` with a
configured backend this is false: the operation's first execution raises
`"DOMAIN_ERR"` inside the `try`, the blanket `except Exception` handler
catches it and executes the operation a second time (`calls = 2`), and —
the operation succeeding this time — the decorated call returns
`ok (vint 42)` instead of raising. -/
theorem cached_domain_error_caught_counterexample :
    cachedCall true Flags.healthy "p" "f" [] [] 60
        (fun n => if n = 0 then .error "DOMAIN_ERR" else .ok (.vint 42))
        ⟨[], 0⟩
      = (⟨[], 2⟩, .ok (.vint 42))
    ∧ (fun n => if n = 0 then (.error "DOMAIN_ERR" : Except String Val)
        else .ok (.vint 42)) 0
      = .error "DOMAIN_ERR" := by
  constructor
  · rfl
  · rfl

/-- C1 (amended): under `invalidate_cache` a domain error from the
wrapped operation propagates unmodified (the operation runs before the
`try` block).  Under `cached` with a configured backend and no usable
cached entry, a domain error is caught by the decorator and the operation
is re-executed; the caller observes the second invocation's outcome, so
when the operation raises the same error on every invocation the
decorated call does raise exactly that error (the store untouched), but
the operation may run twice. -/
theorem domain_error_propagation_amended
    (fl : Flags) (pfx fname : String) (key_pattern : Option String)
    (args : List Arg) (kwargs : List (String × Arg)) (ttl : Nat)
    (f : Fn) (s s' : CacheSt) (e : String)
    (hferr : ∀ n, f n = .error e)
    (hmiss : getStore (generate_cache_key pfx fname args kwargs) s.store
      = none) :
    (cachedCall true fl pfx fname args kwargs ttl f s).2 = .error e
    ∧ (cachedCall true fl pfx fname args kwargs ttl f s).1.store = s.store
    ∧ invalidateCall true fl pfx fname key_pattern args kwargs f s'
      = ({ store := s'.store, calls := s'.calls + 1 }, .error e) := by
  refine ⟨?_, ?_, ?_⟩
  · by_cases hg : fl.getFail
    <;> simp [cachedCall, tryBody, missPath, runFunc, hferr, hmiss, hg]
  · by_cases hg : fl.getFail
    <;> simp [cachedCall, tryBody, missPath, runFunc, hferr, hmiss, hg]
  · simp [invalidateCall, runFunc, hferr]

theorem domain_error_propagation_amended_witness :
    ((∀ n, (fun _ : Nat => (.error "E404" : Except String Val)) n
        = .error "E404")
      ∧ getStore (generate_cache_key "p" "f" [] []) [] = none)
    ∧ (cachedCall true Flags.healthy "p" "f" [] [] 60
        (fun _ => .error "E404") ⟨[], 0⟩).2 = .error "E404"
    ∧ invalidateCall true Flags.healthy "p" "f" none [] []
        (fun _ => .error "E404") ⟨[], 3⟩
      = ({ store := [], calls := 4 }, .error "E404") :=
  ⟨⟨fun _ => rfl, by decide⟩,
   (domain_error_propagation_amended Flags.healthy "p" "f" none [] [] 60
     (fun _ => .error "E404") ⟨[], 0⟩ ⟨[], 3⟩ "E404"
     (fun _ => rfl) (by decide)).1,
   (domain_error_propagation_amended Flags.healthy "p" "f" none [] [] 60
     (fun _ => .error "E404") ⟨[], 0⟩ ⟨[], 3⟩ "E404"
     (fun _ => rfl) (by decide)).2.2⟩

/-- C2 (counterexample): the claim says that when serializing the result
of a cache-miss execution fails, the cache write is skipped and the
caller receives the result of that execution, exactly as if no write had
been attempted.  False: on a miss the operation returns the
non-serializable `pyObject 0`, serialization raises, the `except
CacheException` handler executes the operation a second time
(`calls = 2`), and the caller receives the second invocation's result
`pyObject 1` — not the result `pyObject 0` of the execution whose write
failed. -/
theorem cached_write_failure_counterexample :
    cachedCall true Flags.healthy "p" "f" [] [] 60
        (fun n => .ok (.pyObject n)) ⟨[], 0⟩
      = (⟨[], 2⟩, .ok (.pyObject 1))
    ∧ (fun n => (.ok (.pyObject n) : Except String Val)) 0 = .ok (.pyObject 0)
    ∧ serialize_cache_data (.pyObject 0)
      = .error (.serializationError "serialize")
    ∧ Val.pyObject 1 ≠ Val.pyObject 0 := by
  refine ⟨rfl, rfl, rfl, ?_⟩
  decide

/-- C2 (amended): when, after a cache miss, serializing the non-`None`
result fails or the backend write fails, the failure is swallowed and no
entry is written (the store is unchanged), but the decorator re-executes
the wrapped operation and the caller receives the second invocation's
result — the same value only when the operation returns the same result
on every invocation, as here. -/
theorem cached_write_failure_swallowed_amended
    (fl : Flags) (pfx fname : String) (args : List Arg)
    (kwargs : List (String × Arg)) (ttl : Nat) (f : Fn) (s : CacheSt)
    (v : Val)
    (hget : fl.getFail = false)
    (hmiss : getStore (generate_cache_key pfx fname args kwargs) s.store
      = none)
    (hf : ∀ n, f n = .ok v) (hv : v ≠ .vnull)
    (hfail : v.jsonOk = false ∨ fl.setexFail = true) :
    cachedCall true fl pfx fname args kwargs ttl f s
      = ({ store := s.store, calls := s.calls + 1 + 1 }, .ok v) := by
  rcases hfail with hfail | hfail
  · simp [cachedCall, tryBody, missPath, runFunc, hget, hmiss, hf, hv,
      serialize_cache_data, hfail]
  · by_cases hj : v.jsonOk
    <;> simp [cachedCall, tryBody, missPath, runFunc, hget, hmiss, hf, hv,
      serialize_cache_data, hj, hfail]

theorem cached_write_failure_swallowed_amended_witness :
    (Flags.healthy.getFail = false
      ∧ getStore (generate_cache_key "p" "f" [] []) [] = none
      ∧ (∀ n, (fun _ : Nat => (.ok (.pyObject 5) : Except String Val)) n
          = .ok (.pyObject 5))
      ∧ (Val.pyObject 5) ≠ .vnull
      ∧ Val.jsonOk (.pyObject 5) = false)
    ∧ cachedCall true Flags.healthy "p" "f" [] [] 60
        (fun _ => .ok (.pyObject 5)) ⟨[], 0⟩
      = ({ store := [], calls := 2 }, .ok (.pyObject 5)) :=
  ⟨⟨rfl, by decide, fun _ => rfl, by decide, rfl⟩,
   cached_write_failure_swallowed_amended Flags.healthy "p" "f" [] [] 60
     (fun _ => .ok (.pyObject 5)) ⟨[], 0⟩ (.pyObject 5)
     rfl (by decide) (fun _ => rfl) (by decide) (Or.inl rfl)⟩

/-- C10 (counterexample): the claim says that whenever the backend read
returns a stored entry whose deserialization fails, the wrapped operation
runs and the backend is left completely unchanged — the entry neither
deleted nor overwritten.  False for the empty stored byte string: the
entry `b""` at the derived key `"p:f"` is not valid JSON
(`json.loads("")` raises), yet `if cached_data:` treats the empty reply
as falsy, so the call takes the miss path and the fresh non-`None` result
overwrites the entry. -/
theorem cached_empty_entry_overwritten_counterexample :
    getStore "p:f" [("p:f", CVal.garbage "", 77)]
      = some (CVal.garbage "", 77)
    ∧ deserialize_cache_data (CVal.garbage "")
      = .error (.serializationError "deserialize")
    ∧ cachedCall true Flags.healthy "p" "f" [] [] 60
        (fun _ => .ok (.vint 7)) ⟨[("p:f", CVal.garbage "", 77)], 0⟩
      = (⟨[("p:f", CVal.jsonText (.vint 7), 60)], 1⟩, .ok (.vint 7)) := by
  refine ⟨?_, rfl, ?_⟩
  · rfl
  · rfl

/-- C10 (amended): when the backend read returns a non-empty stored entry
whose deserialization fails, the decorator executes the wrapped operation
exactly once and returns its outcome, the fresh result is not written,
and the store — the undeserializable entry included — is completely
unchanged, so every later call on that key behaves the same until the
entry expires.  (An empty stored entry instead counts as a miss and is
overwritten by a non-`None` result.) -/
theorem cached_deserialization_failure_amended
    (fl : Flags) (pfx fname : String) (args : List Arg)
    (kwargs : List (String × Arg)) (ttl : Nat) (f : Fn) (s : CacheSt)
    (g : String) (t : Nat)
    (hget : fl.getFail = false)
    (hhit : getStore (generate_cache_key pfx fname args kwargs) s.store
      = some (.garbage g, t))
    (hg : g ≠ "") :
    cachedCall true fl pfx fname args kwargs ttl f s
      = ({ store := s.store, calls := s.calls + 1 }, f s.calls) := by
  simp [cachedCall, tryBody, runFunc, hget, hhit, istruthy, hg,
    deserialize_cache_data]

theorem cached_deserialization_failure_amended_witness :
    (Flags.healthy.getFail = false
      ∧ getStore (generate_cache_key "p" "f" [] [])
          [("p:f", CVal.garbage "not json", 77)]
        = some (.garbage "not json", 77)
      ∧ ("not json" : String) ≠ "")
    ∧ cachedCall true Flags.healthy "p" "f" [] [] 60
        (fun _ => .ok (.vint 7)) ⟨[("p:f", CVal.garbage "not json", 77)], 0⟩
      = ({ store := [("p:f", CVal.garbage "not json", 77)], calls := 1 },
          (fun _ : Nat => (.ok (.vint 7) : Except String Val)) 0) :=
  ⟨⟨rfl, by decide, by decide⟩,
   cached_deserialization_failure_amended Flags.healthy "p" "f" [] [] 60
     (fun _ => .ok (.vint 7)) ⟨[("p:f", CVal.garbage "not json", 77)], 0⟩
     "not json" 77 rfl (by decide) (by decide)⟩

end BookCache
